import Mathlib

/-!
Verification of the panel-defect analysis engine: a shallow embedding of the
quadrant classifier, coordinate mapper, jitter handling, aggregation and
reporting logic of the defect-analysis dashboard, with theorems settling the
specification's claims about them.

Conventions of the embedding:
  * pandas dataframes become `List DefectRecord`;
  * Python floats become `Rat` (the arithmetic here is exact: sums, products
    and divisions of small decimals);
  * Python `%` on integers with a positive modulus agrees with `Int.emod`;
  * a raised `ZeroDivisionError` becomes `none` in an `Option` result;
  * `st.error` followed by `return pd.DataFrame()` becomes `Except.error`
    carrying the list of column names the message displays.
-/

/-- One row of the loaded dataframe, with the derived columns the pipeline
adds (`QUADRANT`, `jitter_x`, `jitter_y`). -/
structure DefectRecord where
  defectType : String
  unitIndexX : Int
  unitIndexY : Int
  quadrant : String
  jitterX : Rat
  jitterY : Rat
deriving DecidableEq, Repr

/-- Quadrant assignment from `data_handler.load_data` (lines 87-94):
`np.select(conditions, choices, default='Other')` evaluates the four
conditions in order and takes the first that holds, falling back to the
default when none does. -/
def classifyQuadrant (panelRows panelCols x y : Int) : String :=
  if x < panelRows ∧ y < panelCols then "Q1"
  else if x < panelRows ∧ panelCols ≤ y then "Q2"
  else if panelRows ≤ x ∧ y < panelCols then "Q3"
  else if panelRows ≤ x ∧ panelCols ≤ y then "Q4"
  else "Other"

lemma classifyQuadrant_q1 {panelRows panelCols x y : Int}
    (h1 : x < panelRows) (h2 : y < panelCols) :
    classifyQuadrant panelRows panelCols x y = "Q1" := by
  simp [classifyQuadrant, h1, h2]

lemma classifyQuadrant_q2 {panelRows panelCols x y : Int}
    (h1 : x < panelRows) (h2 : panelCols ≤ y) :
    classifyQuadrant panelRows panelCols x y = "Q2" := by
  simp [classifyQuadrant, h1, h2, h2.not_lt]

lemma classifyQuadrant_q3 {panelRows panelCols x y : Int}
    (h1 : panelRows ≤ x) (h2 : y < panelCols) :
    classifyQuadrant panelRows panelCols x y = "Q3" := by
  simp [classifyQuadrant, h1, h1.not_lt, h2]

lemma classifyQuadrant_q4 {panelRows panelCols x y : Int}
    (h1 : panelRows ≤ x) (h2 : panelCols ≤ y) :
    classifyQuadrant panelRows panelCols x y = "Q4" := by
  simp [classifyQuadrant, h1.not_lt, h2.not_lt, h1, h2]

/-- The four conditions of the classifier cover every pair of integers, so the
`default='Other'` branch of `np.select` can never be taken. -/
lemma classifyQuadrant_mem (panelRows panelCols x y : Int) :
    classifyQuadrant panelRows panelCols x y ∈ (["Q1", "Q2", "Q3", "Q4"] : List String) := by
  rcases lt_or_le x panelRows with h1 | h1 <;> rcases lt_or_le y panelCols with h2 | h2
  · rw [classifyQuadrant_q1 h1 h2]; simp
  · rw [classifyQuadrant_q2 h1 h2]; simp
  · rw [classifyQuadrant_q3 h1 h2]; simp
  · rw [classifyQuadrant_q4 h1 h2]; simp

/-- C1: within the valid index range `[0, 2·panelRows) × [0, 2·panelCols)`,
the classifier assigns exactly one quadrant out of Q1..Q4, each according to
the stated half-plane rule; the four characterising conditions are pairwise
disjoint and together cover the range, so the quadrant sets partition it. -/
theorem c1_quadrant_partition (panelRows panelCols x y : Int)
    (hx0 : 0 ≤ x) (hx : x < 2 * panelRows) (hy0 : 0 ≤ y) (hy : y < 2 * panelCols) :
    classifyQuadrant panelRows panelCols x y ∈ (["Q1", "Q2", "Q3", "Q4"] : List String) ∧
    (classifyQuadrant panelRows panelCols x y = "Q1" ↔ x < panelRows ∧ y < panelCols) ∧
    (classifyQuadrant panelRows panelCols x y = "Q2" ↔ x < panelRows ∧ panelCols ≤ y) ∧
    (classifyQuadrant panelRows panelCols x y = "Q3" ↔ panelRows ≤ x ∧ y < panelCols) ∧
    (classifyQuadrant panelRows panelCols x y = "Q4" ↔ panelRows ≤ x ∧ panelCols ≤ y) := by
  refine ⟨classifyQuadrant_mem panelRows panelCols x y, ?_, ?_, ?_, ?_⟩ <;>
    (rcases lt_or_le x panelRows with h1 | h1 <;> rcases lt_or_le y panelCols with h2 | h2 <;>
      rw [show classifyQuadrant panelRows panelCols x y = _ from
        by first
          | exact classifyQuadrant_q1 h1 h2
          | exact classifyQuadrant_q2 h1 h2
          | exact classifyQuadrant_q3 h1 h2
          | exact classifyQuadrant_q4 h1 h2] <;>
      constructor <;> intro hh) <;>
    first
      | exact rfl
      | exact ⟨h1, h2⟩
      | (exfalso; revert hh; decide)
      | (exfalso; rcases hh with ⟨ha, hb⟩; omega)

/-- Witness for C1 at `panelRows = panelCols = 2`, `(x, y) = (1, 3)`. -/
theorem c1_quadrant_partition_witness :
    classifyQuadrant 2 2 1 3 ∈ (["Q1", "Q2", "Q3", "Q4"] : List String) ∧
    (classifyQuadrant 2 2 1 3 = "Q1" ↔ (1 : Int) < 2 ∧ (3 : Int) < 2) ∧
    (classifyQuadrant 2 2 1 3 = "Q2" ↔ (1 : Int) < 2 ∧ (2 : Int) ≤ 3) ∧
    (classifyQuadrant 2 2 1 3 = "Q3" ↔ (2 : Int) ≤ 1 ∧ (3 : Int) < 2) ∧
    (classifyQuadrant 2 2 1 3 = "Q4" ↔ (2 : Int) ≤ 1 ∧ (2 : Int) ≤ 3) :=
  c1_quadrant_partition 2 2 1 3 (by decide) (by decide) (by decide) (by decide)

/-- C3 counterexample: the record `(unitIndexX, unitIndexY) = (-1, 0)` is out
of range for `panelRows = panelCols = 2`, yet the classifier files it under
`Q1` — not under any `Other`/`Unknown` bucket. -/
theorem c3_counterexample :
    classifyQuadrant 2 2 (-1) 0 = "Q1" ∧ classifyQuadrant 2 2 (-1) 0 ≠ "Other" ∧
    classifyQuadrant 2 2 (-1) 0 ≠ "Unknown" := by
  refine ⟨?_, ?_, ?_⟩ <;> decide

/-- C3 amended: for every pair of integer indices — in range or not — the
classifier assigns one of Q1..Q4; the `Other` default of `np.select` is
unreachable, so out-of-range records are absorbed into the ordinary quadrants
by the same half-plane comparisons and no `Other`/`Unknown` bucket ever
reaches the aggregation outputs. -/
theorem c3_no_unknown_bucket :
    ∀ panelRows panelCols x y : Int,
      classifyQuadrant panelRows panelCols x y ≠ "Other" ∧
      classifyQuadrant panelRows panelCols x y ∈ (["Q1", "Q2", "Q3", "Q4"] : List String) := by
  intro panelRows panelCols x y
  refine ⟨?_, classifyQuadrant_mem panelRows panelCols x y⟩
  have h := classifyQuadrant_mem panelRows panelCols x y
  simp only [List.mem_cons, List.not_mem_nil, or_false] at h
  rcases h with h | h | h | h <;> rw [h] <;> decide

/-- Number of records of `df` filed under quadrant `q`
(`full_df[full_df['QUADRANT'] == quad]` row count). -/
def countQuadrant (df : List DefectRecord) (q : String) : Nat :=
  (df.filter (fun r => r.quadrant == q)).length

/-- The Quarterly Summary rows of `reporting.generate_excel_report`
(lines 37-48): one row per quadrant Q1..Q4 with its defect count, then a
`Total` row counting the whole dataframe. -/
def quarterlySummaryRows (df : List DefectRecord) : List (String × Nat) :=
  (["Q1", "Q2", "Q3", "Q4"].map (fun q => (q, countQuadrant df q))) ++ [("Total", df.length)]

lemma countQuadrant_cons (r : DefectRecord) (t : List DefectRecord) (q : String) :
    countQuadrant (r :: t) q =
      (if r.quadrant == q then 1 else 0) + countQuadrant t q := by
  simp only [countQuadrant, List.filter_cons]
  split <;> simp [Nat.add_comm]

lemma length_eq_sum_countQuadrant (df : List DefectRecord)
    (h : ∀ r ∈ df, r.quadrant = "Q1" ∨ r.quadrant = "Q2" ∨
      r.quadrant = "Q3" ∨ r.quadrant = "Q4") :
    df.length = countQuadrant df "Q1" + countQuadrant df "Q2" +
      countQuadrant df "Q3" + countQuadrant df "Q4" := by
  induction df with
  | nil => simp [countQuadrant]
  | cons r t ih =>
    have hr := h r (List.mem_cons_self r t)
    have ht := ih (fun x hx => h x (List.mem_cons_of_mem r hx))
    simp only [List.length_cons, countQuadrant_cons]
    rcases hr with hq | hq | hq | hq <;> rw [hq] <;> simp <;> omega

/-- C10: when every record's `QUADRANT` column was produced by the classifier,
the report's Quarterly Summary has exactly the five entries Q1, Q2, Q3, Q4 and
Total, and the Total defect count is the sum of the four quadrant counts —
the classifier's `Other` default is unreachable, so the totals reconcile even
for out-of-range indices. -/
theorem c10_quarterly_summary_reconciles (panelRows panelCols : Int)
    (df : List DefectRecord)
    (hq : ∀ r ∈ df, r.quadrant =
      classifyQuadrant panelRows panelCols r.unitIndexX r.unitIndexY) :
    (quarterlySummaryRows df).map Prod.fst = ["Q1", "Q2", "Q3", "Q4", "Total"] ∧
    df.length = countQuadrant df "Q1" + countQuadrant df "Q2" +
      countQuadrant df "Q3" + countQuadrant df "Q4" := by
  refine ⟨by simp [quarterlySummaryRows], ?_⟩
  refine length_eq_sum_countQuadrant df (fun r hr => ?_)
  have h := classifyQuadrant_mem panelRows panelCols r.unitIndexX r.unitIndexY
  rw [← hq r hr] at h
  simpa using h

/-- Witness for C10: one classifier-labelled record at `(1, 1)` with
`panelRows = panelCols = 2`, landing in Q1; the summary rows reconcile. -/
theorem c10_quarterly_summary_reconciles_witness :
    (quarterlySummaryRows [⟨"Nick", 1, 1, "Q1", 0, 0⟩]).map Prod.fst =
      ["Q1", "Q2", "Q3", "Q4", "Total"] ∧
    ([⟨"Nick", 1, 1, "Q1", 0, 0⟩] : List DefectRecord).length =
      countQuadrant [⟨"Nick", 1, 1, "Q1", 0, 0⟩] "Q1" +
      countQuadrant [⟨"Nick", 1, 1, "Q1", 0, 0⟩] "Q2" +
      countQuadrant [⟨"Nick", 1, 1, "Q1", 0, 0⟩] "Q3" +
      countQuadrant [⟨"Nick", 1, 1, "Q1", 0, 0⟩] "Q4" :=
  c10_quarterly_summary_reconciles 2 2 [⟨"Nick", 1, 1, "Q1", 0, 0⟩] (by decide)

/-- The jitter draw of `app.py` (lines 118-119): `np.random.rand() * 0.8 + 0.1`
applied to one uniform sample `r ∈ [0, 1)`. -/
def jitterOf (r : Rat) : Rat := r * (8 / 10) + 1 / 10

/-- Attach freshly drawn jitter columns to a dataframe
(`full_df['jitter_x'] = np.random.rand(len(full_df)) * 0.8 + 0.1`, same for y). -/
def attachJitter (df : List DefectRecord) (randX randY : List Rat) : List DefectRecord :=
  (df.zip (randX.zip randY)).map
    (fun p => { p.1 with jitterX := jitterOf p.2.1, jitterY := jitterOf p.2.2 })

/-- The session state of `app.py` that survives across Streamlit reruns:
the processed dataframe and whether its jitter columns exist. -/
structure AppState where
  processedDf : List DefectRecord
  hasJitterCols : Bool
deriving DecidableEq, Repr

/-- The guarded jitter step of `app.py` `main` (lines 116-120), executed on
every rerun: jitter is (re)drawn from the fresh random streams only when the
stored dataframe is empty or lacks the jitter columns; otherwise the stored
state is kept untouched. -/
def rerunJitterStep (fullDf : List DefectRecord) (randX randY : List Rat)
    (s : AppState) : AppState :=
  if s.processedDf.isEmpty || !s.hasJitterCols then
    { processedDf := attachJitter fullDf randX randY, hasJitterCols := true }
  else s

/-- C2 amended: every jitter component drawn from a uniform sample
`r ∈ [0, 1)` lies in the half-open interval `[0.1, 0.9)` (the left endpoint
`0.1` is attainable, so the open interval of the claim is off by one
endpoint), and once the session state holds a non-empty dataframe with jitter
columns, every further rerun — re-render, quadrant re-filter or view switch —
leaves it unchanged no matter what fresh randomness is supplied: jitter is
never recomputed on a read-only render path. -/
theorem c2_jitter_range_and_stability :
    (∀ r : Rat, 0 ≤ r → r < 1 → 1 / 10 ≤ jitterOf r ∧ jitterOf r < 9 / 10) ∧
    (∀ (fullDf : List DefectRecord) (randX randY : List Rat) (s : AppState),
      s.processedDf ≠ [] → s.hasJitterCols = true →
      rerunJitterStep fullDf randX randY s = s) := by
  constructor
  · intro r h0 h1
    have ha : 0 ≤ r * (8 / 10 : Rat) := mul_nonneg h0 (by norm_num)
    have hb : r * (8 / 10 : Rat) < 1 * (8 / 10) :=
      mul_lt_mul_of_pos_right h1 (by norm_num)
    constructor <;> (simp only [jitterOf]; linarith)
  · intro fullDf randX randY s hne hcols
    have : s.processedDf.isEmpty = false := by
      cases hdf : s.processedDf with
      | nil => exact absurd hdf hne
      | cons a t => simp
    simp [rerunJitterStep, this, hcols]

/-- C2 counterexample: the claim's open interval `(0.1, 0.9)` is violated by
the attainable uniform sample `r = 0`, for which the jitter is exactly `0.1`. -/
theorem c2_counterexample :
    ¬ (∀ r : Rat, 0 ≤ r → r < 1 → 1 / 10 < jitterOf r ∧ jitterOf r < 9 / 10) := by
  intro h
  have h0 := (h 0 le_rfl (by norm_num)).1
  norm_num [jitterOf] at h0

/-- The x component of the coordinate transformation
(`data_handler.load_data` lines 97-101, and `views._calculate_defect_coordinates`
at `cell_size = 1`): `plot_x = (UNIT_INDEX_Y % panel_cols) + x_offset + jitter_x`
with `x_offset = panel_cols + gap_size` for the right half. -/
def plotXCoord (panelCols gapSize unitIndexY : Int) (jx : Rat) : Rat :=
  ((unitIndexY % panelCols : Int) : Rat) +
    (if panelCols ≤ unitIndexY then ((panelCols + gapSize : Int) : Rat) else 0) + jx

/-- The y component of the coordinate transformation:
`plot_y = (UNIT_INDEX_X % panel_rows) + y_offset + jitter_y`. -/
def plotYCoord (panelRows gapSize unitIndexX : Int) (jy : Rat) : Rat :=
  ((unitIndexX % panelRows : Int) : Rat) +
    (if panelRows ≤ unitIndexX then ((panelRows + gapSize : Int) : Rat) else 0) + jy

lemma plotXCoord_bounds (panelCols gapSize unitIndexY : Int) (jx : Rat)
    (hc : 2 ≤ panelCols) (hg : 0 ≤ gapSize) (hj1 : 1 / 10 < jx) (hj2 : jx < 9 / 10) :
    0 ≤ plotXCoord panelCols gapSize unitIndexY jx ∧
    plotXCoord panelCols gapSize unitIndexY jx ≤ ((2 * panelCols + gapSize : Int) : Rat) := by
  have hm0 : (0 : Int) ≤ unitIndexY % panelCols := Int.emod_nonneg unitIndexY (by omega)
  have hm1 : unitIndexY % panelCols < panelCols := Int.emod_lt_of_pos unitIndexY (by omega)
  have hm0q : (0 : Rat) ≤ ((unitIndexY % panelCols : Int) : Rat) := by exact_mod_cast hm0
  have hm1q : ((unitIndexY % panelCols : Int) : Rat) ≤ (panelCols : Rat) - 1 := by
    have : unitIndexY % panelCols ≤ panelCols - 1 := by omega
    calc ((unitIndexY % panelCols : Int) : Rat) ≤ ((panelCols - 1 : Int) : Rat) := by
          exact_mod_cast this
      _ = (panelCols : Rat) - 1 := by push_cast; ring
  have hcq : (2 : Rat) ≤ (panelCols : Rat) := by exact_mod_cast hc
  have hgq : (0 : Rat) ≤ (gapSize : Rat) := by exact_mod_cast hg
  unfold plotXCoord
  split
  · constructor
    · have : (0 : Rat) ≤ ((panelCols + gapSize : Int) : Rat) := by
        push_cast; linarith
      linarith
    · push_cast; linarith
  · constructor
    · linarith
    · push_cast; linarith

lemma plotYCoord_bounds (panelRows gapSize unitIndexX : Int) (jy : Rat)
    (hr : 2 ≤ panelRows) (hg : 0 ≤ gapSize) (hj1 : 1 / 10 < jy) (hj2 : jy < 9 / 10) :
    0 ≤ plotYCoord panelRows gapSize unitIndexX jy ∧
    plotYCoord panelRows gapSize unitIndexX jy ≤ ((2 * panelRows + gapSize : Int) : Rat) :=
  plotXCoord_bounds panelRows gapSize unitIndexX jy hr hg hj1 hj2

/-- C5: the Coordinate Mapper computes exactly
`plot = (index mod panelDim) + (panelDim + gapSize when the index is in the
far half, else 0) + jitter` in each axis, and for any integer record indices,
`panelRows, panelCols ≥ 2`, `gapSize ≥ 0` and jitter components inside
`(0.1, 0.9)`, the resulting position lies in the union coordinate space
`[0, 2·panelCols + gapSize] × [0, 2·panelRows + gapSize]`. -/
theorem c5_coordinate_mapper (panelRows panelCols gapSize x y : Int) (jx jy : Rat)
    (hr : 2 ≤ panelRows) (hc : 2 ≤ panelCols) (hg : 0 ≤ gapSize)
    (hjx1 : 1 / 10 < jx) (hjx2 : jx < 9 / 10)
    (hjy1 : 1 / 10 < jy) (hjy2 : jy < 9 / 10) :
    plotXCoord panelCols gapSize y jx =
      ((y % panelCols : Int) : Rat) +
        (if panelCols ≤ y then ((panelCols + gapSize : Int) : Rat) else 0) + jx ∧
    plotYCoord panelRows gapSize x jy =
      ((x % panelRows : Int) : Rat) +
        (if panelRows ≤ x then ((panelRows + gapSize : Int) : Rat) else 0) + jy ∧
    0 ≤ plotXCoord panelCols gapSize y jx ∧
    plotXCoord panelCols gapSize y jx ≤ ((2 * panelCols + gapSize : Int) : Rat) ∧
    0 ≤ plotYCoord panelRows gapSize x jy ∧
    plotYCoord panelRows gapSize x jy ≤ ((2 * panelRows + gapSize : Int) : Rat) := by
  obtain ⟨hx0, hx1⟩ := plotXCoord_bounds panelCols gapSize y jx hc hg hjx1 hjx2
  obtain ⟨hy0, hy1⟩ := plotYCoord_bounds panelRows gapSize x jy hr hg hjy1 hjy2
  exact ⟨rfl, rfl, hx0, hx1, hy0, hy1⟩

/-- Witness for C5 at `panelRows = panelCols = 2`, `gapSize = 1`,
`(x, y) = (0, 3)`, jitter `(1/2, 1/2)`. -/
theorem c5_coordinate_mapper_witness :
    0 ≤ plotXCoord 2 1 3 (1 / 2) ∧ plotXCoord 2 1 3 (1 / 2) ≤ ((2 * 2 + 1 : Int) : Rat) ∧
    0 ≤ plotYCoord 2 1 0 (1 / 2) ∧ plotYCoord 2 1 0 (1 / 2) ≤ ((2 * 2 + 1 : Int) : Rat) := by
  obtain ⟨-, -, h1, h2, h3, h4⟩ :=
    c5_coordinate_mapper 2 2 1 0 3 (1 / 2) (1 / 2) (by norm_num) (by norm_num)
      (by norm_num) (by norm_num) (by norm_num) (by norm_num) (by norm_num)
  exact ⟨h1, h2, h3, h4⟩

/-- Defect density of the summary views (`views.render_summary_view` line 135
and app.py line 231): `total_defects / total_cells if total_cells > 0 else 0`. -/
def viewDefectDensity (totalDefects totalCells : Nat) : Rat :=
  if 0 < totalCells then (totalDefects : Rat) / (totalCells : Rat) else 0

/-- Yield estimate of the summary views (`views.render_summary_view` line 136):
`(total_cells - defective_cells) / total_cells if total_cells > 0 else 0`,
with no clamping of negative values. -/
def viewYieldEstimate (totalCells defectiveCells : Nat) : Rat :=
  if 0 < totalCells then ((totalCells : Rat) - (defectiveCells : Rat)) / (totalCells : Rat)
  else 0

/-- Per-quadrant density of the Excel report (`reporting.generate_excel_report`
line 42): `len(quad_df) / (panel_rows * panel_cols)` with no zero guard — a
zero cell count raises `ZeroDivisionError`, modelled as `none`. -/
def reportQuadrantDensity (quadDefects : Nat) (panelRows panelCols : Int) : Option Rat :=
  if panelRows * panelCols = 0 then none
  else some ((quadDefects : Rat) / ((panelRows * panelCols : Int) : Rat))

/-- Overall density of the Excel report (line 45):
`total / (4 * panel_rows * panel_cols) if (panel_rows * panel_cols) > 0 else 0`. -/
def reportTotalDensity (totalDefects : Nat) (panelRows panelCols : Int) : Rat :=
  if 0 < panelRows * panelCols
  then (totalDefects : Rat) / ((4 * (panelRows * panelCols) : Int) : Rat)
  else 0

/-- C6 counterexample: with degenerate geometry `panelRows = 0`,
`panelCols = 5` (so `panelRows * panelCols = 0`), the report's per-quadrant
density raises a `ZeroDivisionError` (modelled `none`) instead of producing
the defined 0 the claim asserts. -/
theorem c6_counterexample :
    reportQuadrantDensity 3 0 5 = none ∧ reportQuadrantDensity 3 0 5 ≠ some 0 := by
  constructor <;> decide

/-- C6 amended: in the summary views (and in the report's overall density) the
division is guarded, so the density is a defined value that is always ≥ 0,
with 0 returned when `panelRows * panelCols = 0`; the yield estimate is
computed without clamping and is negative exactly when the cell count is
positive and the distinct defective cells exceed it, and that negative value
is returned (surfaced); but the report's per-quadrant density is unguarded —
it is defined exactly when `panelRows * panelCols ≠ 0` and raises otherwise. -/
theorem c6_density_yield_guards :
    (∀ totalDefects totalCells : Nat, 0 ≤ viewDefectDensity totalDefects totalCells) ∧
    (∀ totalDefects totalCells : Nat, totalCells = 0 →
      viewDefectDensity totalDefects totalCells = 0) ∧
    (∀ totalCells defectiveCells : Nat,
      viewYieldEstimate totalCells defectiveCells < 0 ↔
        0 < totalCells ∧ totalCells < defectiveCells) ∧
    (∀ (quadDefects : Nat) (panelRows panelCols : Int),
      reportQuadrantDensity quadDefects panelRows panelCols = none ↔
        panelRows * panelCols = 0) ∧
    (∀ (totalDefects : Nat) (panelRows panelCols : Int),
      0 ≤ reportTotalDensity totalDefects panelRows panelCols) := by
  refine ⟨?_, ?_, ?_, ?_, ?_⟩
  · intro t c
    unfold viewDefectDensity
    split
    · positivity
    · exact le_refl 0
  · intro t c hc
    simp [viewDefectDensity, hc]
  · intro c d
    unfold viewYieldEstimate
    split
    · rename_i hc
      rw [div_neg_iff]
      constructor
      · rintro (⟨-, hneg⟩ | ⟨hlt, -⟩)
        · have hnn : (0 : Rat) ≤ (c : Rat) := by positivity
          exact absurd hneg hnn.not_lt
        · exact ⟨hc, by exact_mod_cast sub_neg.mp hlt⟩
      · rintro ⟨-, hlt⟩
        refine Or.inr ⟨?_, by positivity⟩
        have : (c : Rat) < (d : Rat) := by exact_mod_cast hlt
        linarith
    · rename_i hc
      simp only [lt_irrefl, false_iff, not_and]
      intro h
      exact absurd h hc
  · intro q panelRows panelCols
    unfold reportQuadrantDensity
    split <;> simp_all
  · intro t panelRows panelCols
    unfold reportTotalDensity
    split
    · rename_i h
      have : (0 : Rat) ≤ ((4 * (panelRows * panelCols) : Int) : Rat) := by
        have : (0 : Int) ≤ 4 * (panelRows * panelCols) := by positivity
        exact_mod_cast this
      positivity
    · exact le_refl 0

/-- Distinct values of a list in order of first appearance: the key order the
pandas hashtable hands to `value_counts` before sorting. -/
def firstSeenKeys : List String → List String
  | [] => []
  | a :: rest => a :: (firstSeenKeys rest).filter (fun s => !(s == a))

lemma mem_firstSeenKeys (l : List String) (t : String) :
    t ∈ firstSeenKeys l ↔ t ∈ l := by
  induction l with
  | nil => simp [firstSeenKeys]
  | cons a rest ih =>
    simp only [firstSeenKeys, List.mem_cons, List.mem_filter]
    constructor
    · rintro (h | ⟨h, -⟩)
      · exact Or.inl h
      · exact Or.inr (ih.mp h)
    · rintro (h | h)
      · exact Or.inl h
      · by_cases hat : t = a
        · exact Or.inl hat
        · exact Or.inr ⟨ih.mpr h, by simp [hat]⟩

/-- The `(value, count)` pairs of a list, keys in first-appearance order. -/
def keyCounts (l : List String) : List (String × Nat) :=
  (firstSeenKeys l).map (fun t => (t, l.count t))

/-- Stable insertion into a count-descending list: the new entry is placed
before the first entry whose count is not larger (so, before entries of equal
count, which come from later keys). -/
def insertCountDesc (x : String × Nat) : List (String × Nat) → List (String × Nat)
  | [] => [x]
  | q :: rest => if x.2 < q.2 then q :: insertCountDesc x rest else x :: q :: rest

/-- Stable sort by descending count. -/
def sortCountDesc : List (String × Nat) → List (String × Nat)
  | [] => []
  | x :: xs => insertCountDesc x (sortCountDesc xs)

/-- pandas `Series.value_counts()`: distinct values with their multiplicities,
sorted by descending count, ties kept in first-appearance order. -/
def valueCounts (l : List String) : List (String × Nat) :=
  sortCountDesc (keyCounts l)

lemma insertCountDesc_perm (x : String × Nat) (l : List (String × Nat)) :
    List.Perm (insertCountDesc x l) (x :: l) := by
  induction l with
  | nil => exact List.Perm.refl _
  | cons q rest ih =>
    unfold insertCountDesc
    split
    · exact (ih.cons q).trans (List.Perm.swap x q rest)
    · exact List.Perm.refl _

lemma sortCountDesc_perm (l : List (String × Nat)) : List.Perm (sortCountDesc l) l := by
  induction l with
  | nil => exact List.Perm.refl _
  | cons x xs ih =>
    exact (insertCountDesc_perm x (sortCountDesc xs)).trans (ih.cons x)

/-- Order relation a count-descending, stable sort of `ps` obeys: either the
count strictly drops, or the counts tie and the two entries appear in `ps`
(first-appearance order) in the same relative order. -/
def entryRel (ps : List (String × Nat)) (a b : String × Nat) : Prop :=
  b.2 < a.2 ∨ (a.2 = b.2 ∧ List.Sublist [a, b] ps)

lemma entryRel_le {ps : List (String × Nat)} {a b : String × Nat}
    (h : entryRel ps a b) : b.2 ≤ a.2 := by
  rcases h with h | ⟨h, -⟩
  · exact h.le
  · exact h.ge

lemma entryRel_mono {ps : List (String × Nat)} (x : String × Nat)
    {a b : String × Nat} (h : entryRel ps a b) : entryRel (x :: ps) a b := by
  rcases h with h | ⟨h1, h2⟩
  · exact Or.inl h
  · exact Or.inr ⟨h1, h2.cons x⟩

lemma insertCountDesc_pairwise (ps : List (String × Nat)) (x : String × Nat)
    (l : List (String × Nat)) (hl : l.Pairwise (entryRel ps))
    (hmem : ∀ q ∈ l, q ∈ ps) :
    (insertCountDesc x l).Pairwise (entryRel (x :: ps)) := by
  induction l with
  | nil => simp [insertCountDesc]
  | cons q rest ih =>
    rcases List.pairwise_cons.mp hl with ⟨hq, hrest⟩
    unfold insertCountDesc
    split
    · rename_i hlt
      refine List.pairwise_cons.mpr
        ⟨?_, ih hrest (fun a ha => hmem a (List.mem_cons_of_mem q ha))⟩
      intro b hb
      have hb' : b = x ∨ b ∈ rest := by
        have := (insertCountDesc_perm x rest).mem_iff.mp hb
        simpa using this
      rcases hb' with rfl | hbr
      · exact Or.inl hlt
      · exact entryRel_mono x (hq b hbr)
    · rename_i hge
      push_neg at hge
      refine List.pairwise_cons.mpr ⟨?_, List.Pairwise.imp (entryRel_mono x) hl⟩
      intro b hb
      rcases List.mem_cons.mp hb with rfl | hbr
      · rcases lt_or_eq_of_le hge with h | h
        · exact Or.inl h
        · exact Or.inr ⟨h.symm,
            (List.singleton_sublist.mpr (hmem b (List.mem_cons_self b rest))).cons₂ x⟩
      · have hbq := entryRel_le (hq b hbr)
        rcases lt_or_eq_of_le (le_trans hbq hge) with h | h
        · exact Or.inl h
        · exact Or.inr ⟨h.symm,
            (List.singleton_sublist.mpr (hmem b (List.mem_cons_of_mem q hbr))).cons₂ x⟩

lemma sortCountDesc_pairwise (l : List (String × Nat)) :
    (sortCountDesc l).Pairwise (entryRel l) := by
  induction l with
  | nil => simp [sortCountDesc]
  | cons x xs ih =>
    exact insertCountDesc_pairwise xs x (sortCountDesc xs) ih
      (fun q hq => (sortCountDesc_perm xs).subset hq)

lemma mem_valueCounts {l : List String} {p : String × Nat} :
    p ∈ valueCounts l ↔ p ∈ keyCounts l :=
  (sortCountDesc_perm (keyCounts l)).mem_iff

lemma valueCounts_count {l : List String} {p : String × Nat}
    (hp : p ∈ valueCounts l) : p.2 = l.count p.1 := by
  rcases List.mem_map.mp (mem_valueCounts.mp hp) with ⟨t, -, ht⟩
  rw [← ht]

lemma valueCounts_covers {l : List String} {t : String} (ht : t ∈ l) :
    (t, l.count t) ∈ valueCounts l :=
  mem_valueCounts.mpr (List.mem_map.mpr ⟨t, (mem_firstSeenKeys l t).mpr ht, rfl⟩)

lemma valueCounts_pairwise (l : List String) :
    (valueCounts l).Pairwise (entryRel (keyCounts l)) :=
  sortCountDesc_pairwise (keyCounts l)

/-- The fixed quadrant order the comparator iterates
(`quadrants = ['Q1', 'Q2', 'Q3', 'Q4']`). -/
def quadrantLabels : List String := ["Q1", "Q2", "Q3", "Q4"]

/-- The `DEFECT_TYPE` column of a dataframe. -/
def defectTypes (df : List DefectRecord) : List String :=
  df.map (fun r => r.defectType)

/-- Count of records with the given quadrant and defect type
(one cell of `df.groupby(['QUADRANT', 'DEFECT_TYPE']).size()`). -/
def countQuadType (df : List DefectRecord) (q t : String) : Nat :=
  (df.filter (fun r => r.quadrant == q && r.defectType == t)).length

/-- The category list `top_defects = df['DEFECT_TYPE'].value_counts().index.tolist()`: the
defect types ordered by descending total count. -/
def topDefects (df : List DefectRecord) : List String :=
  (valueCounts (defectTypes df)).map Prod.fst

/-- Embedding of `create_grouped_pareto_trace` (plotting.py 253-276): one bar trace per
quadrant over the `top_defects` categories. For a quadrant with no records
the per-quadrant pivot has no columns, so `pivot.empty` holds and the trace
is skipped; for a quadrant with records, the pivot is reindexed to
`top_defects` and `fillna(0)` zero-fills the types absent from it. -/
def groupedParetoTraces (df : List DefectRecord) :
    List (String × List (String × Nat)) :=
  if df.isEmpty then []
  else
    quadrantLabels.filterMap (fun q =>
      if (df.filter (fun r => r.quadrant == q)).isEmpty then none
      else some (q, (topDefects df).map (fun t => (t, countQuadType df q t))))

/-- A one-record input: a single `Nick` defect in Q1. -/
def c4SampleDf : List DefectRecord := [⟨"Nick", 0, 0, "Q1", 0, 0⟩]

/-- C4 counterexample: on a dataset whose records all sit in Q1, the
Cross-Quadrant Comparator emits only the Q1 series — Q2, Q3 and Q4 are
omitted entirely rather than being present with zero counts. -/
theorem c4_counterexample :
    (groupedParetoTraces c4SampleDf).map Prod.fst = ["Q1"] ∧
    "Q2" ∉ (groupedParetoTraces c4SampleDf).map Prod.fst := by
  constructor <;> decide

lemma filterMapGuard_map_fst (qs : List String) (p : String → Bool)
    (g : String → List (String × Nat)) :
    ((qs.filterMap (fun q => if p q then none else some (q, g q))).map Prod.fst) =
      qs.filter (fun q => !(p q)) := by
  induction qs with
  | nil => simp
  | cons q rest ih =>
    by_cases h : p q <;> simp [List.filterMap_cons, h, ih, List.filter_cons]

lemma countQuadType_eq_zero {df : List DefectRecord} {q t : String}
    (h : ∀ r ∈ df, ¬(r.quadrant = q ∧ r.defectType = t)) :
    countQuadType df q t = 0 := by
  unfold countQuadType
  rw [List.length_eq_zero]
  rw [List.filter_eq_nil_iff]
  intro r hr
  simp only [Bool.and_eq_true, beq_iff_eq]
  exact fun hc => h r hr hc

/-- C4 amended: the Cross-Quadrant Comparator emits one series per quadrant
that has at least one record, in the fixed order Q1..Q4 (a quadrant with zero
matching records is omitted, not zero-filled); every emitted series ranges
over the same `top_defects` categories, zero-filling the (quadrant, type)
pairs with no records; and the category order is descending by total count
across quadrants, ties kept in first-appearance order. -/
theorem c4_grouped_pareto_series (df : List DefectRecord) (hne : df ≠ []) :
    ((groupedParetoTraces df).map Prod.fst =
      quadrantLabels.filter (fun q => !(df.filter (fun r => r.quadrant == q)).isEmpty)) ∧
    (∀ q ys, (q, ys) ∈ groupedParetoTraces df →
      ys.map Prod.fst = topDefects df ∧
      ∀ t n, (t, n) ∈ ys →
        n = countQuadType df q t ∧
        ((∀ r ∈ df, ¬(r.quadrant = q ∧ r.defectType = t)) → n = 0)) ∧
    (∀ p ∈ valueCounts (defectTypes df), p.2 = (defectTypes df).count p.1) ∧
    (valueCounts (defectTypes df)).Pairwise (entryRel (keyCounts (defectTypes df))) := by
  have hdf : df.isEmpty = false := by
    cases df with
    | nil => exact absurd rfl hne
    | cons a t => simp
  refine ⟨?_, ?_, fun p hp => valueCounts_count hp, valueCounts_pairwise _⟩
  · rw [groupedParetoTraces, hdf]
    simp only [Bool.false_eq_true, if_false]
    exact filterMapGuard_map_fst quadrantLabels _ _
  · intro q ys hmem
    rw [groupedParetoTraces, hdf] at hmem
    simp only [Bool.false_eq_true, if_false] at hmem
    rcases List.mem_filterMap.mp hmem with ⟨a, -, ha⟩
    by_cases hempty : (df.filter (fun r => r.quadrant == a)).isEmpty
    · rw [if_pos hempty] at ha
      exact absurd ha (by simp)
    · rw [if_neg hempty] at ha
      rcases Option.some.inj ha with h
      rcases Prod.mk.injEq .. ▸ h with ⟨rfl, rfl⟩
      constructor
      · simp [topDefects, List.map_map, Function.comp]
      · intro t n htn
        rcases List.mem_map.mp htn with ⟨t', -, ht'⟩
        rcases Prod.mk.injEq .. ▸ ht' with ⟨rfl, rfl⟩
        exact ⟨rfl, fun hnone => countQuadType_eq_zero hnone⟩

/-- A two-record input touching Q1 and Q4 only. -/
def c4WitnessDf : List DefectRecord :=
  [⟨"Nick", 0, 0, "Q1", 0, 0⟩, ⟨"Short", 5, 5, "Q4", 0, 0⟩]

/-- Witness for C4 (amended) on a concrete dataset with records in Q1 and Q4. -/
theorem c4_grouped_pareto_series_witness :
    (groupedParetoTraces c4WitnessDf).map Prod.fst =
      quadrantLabels.filter
        (fun q => !(c4WitnessDf.filter (fun r => r.quadrant == q)).isEmpty) :=
  (c4_grouped_pareto_series c4WitnessDf (by decide)).1

/-- The `defect_style_map` of config.py: the known defect types and their marker
colors. -/
def defectStyleMap : List (String × String) :=
  [("Nick", "magenta"), ("Short", "red"), ("Missing Feature", "lime"),
   ("Cut", "cyan"), ("Fine Short", "#DDA0DD"), ("Pad Violation", "grey"),
   ("Island", "orange"), ("Cut/Short", "#00BFFF"), ("Nick/Protrusion", "yellow")]

/-- The lookup `defect_style_map.get(dtype, 'grey')`: the configured color of a defect
type, with the fallback `grey` for a type not in the map. -/
def styleColor (t : String) : String :=
  ((defectStyleMap.find? (fun p => p.1 == t)).map Prod.snd).getD "grey"

/-- Embedding of `create_pareto_trace` (plotting.py 240-251): the single Pareto bar trace —
`value_counts` of `DEFECT_TYPE` as `(type, count, bar color)` triples. This is
everything the function returns: no cumulative-percentage series is computed
anywhere in the module. -/
def createParetoTrace (df : List DefectRecord) : List (String × Nat × String) :=
  (valueCounts (defectTypes df)).map (fun p => (p.1, p.2, styleColor p.1))

/-- The dataframe of the repository's own test fixture for the Pareto trace
(tests/test_plotting.py): types Nick ×3, Short ×2, Cut ×1. -/
def c7FixtureDf : List DefectRecord :=
  [⟨"Nick", 1, 1, "Q1", 0, 0⟩, ⟨"Short", 2, 2, "Q1", 0, 0⟩,
   ⟨"Nick", 3, 3, "Q2", 0, 0⟩, ⟨"Cut", 4, 4, "Q2", 0, 0⟩,
   ⟨"Short", 5, 5, "Q3", 0, 0⟩, ⟨"Nick", 6, 6, "Q4", 0, 0⟩]

/-- C7: evaluated at the repository's own test fixture,
`create_pareto_trace` yields only the count-descending bar series; the output
carries no cumulative-percentage entries at all, although the repository's
test `test_create_pareto_trace` requires a second, cumulative line trace
whose last value is 100. -/
theorem c7_pareto_missing_cumulative :
    createParetoTrace c7FixtureDf =
      [("Nick", 3, "magenta"), ("Short", 2, "red"), ("Cut", 1, "cyan")] := by
  decide

/-- Embedding of `create_defect_traces` (plotting.py 149-162): iterates over the entries of
`defect_style_map` only, emitting one scatter trace per known defect type with
matching records; records whose type is not a key of the map are never
visited. -/
def createDefectTraces (df : List DefectRecord) :
    List (String × String × List DefectRecord) :=
  defectStyleMap.filterMap (fun p =>
    if (df.filter (fun r => r.defectType == p.1)).isEmpty then none
    else some (p.1, p.2, df.filter (fun r => r.defectType == p.1)))

/-- A single record with the unknown defect type `Scratch`. -/
def c8UnknownDf : List DefectRecord := [⟨"Scratch", 0, 0, "Q1", 0, 0⟩]

/-- C8 counterexample: a record whose defect type `Scratch` is not in the
configured style map produces no scatter trace at all — it is silently
omitted from the per-type plotting output (while the Pareto ranking does
count it, with the fallback color grey). -/
theorem c8_counterexample :
    createDefectTraces c8UnknownDf = [] ∧
    createParetoTrace c8UnknownDf = [("Scratch", 1, "grey")] := by
  constructor <;> decide

/-- C8 amended: records with unknown defect types are accepted and counted in
the Pareto ranking, rendered there with the fallback color grey; but the
per-type scatter output `create_defect_traces` only ever emits traces for
types present in the configured style map, so records with unknown defect
types appear in no scatter trace — they are silently omitted from the defect
map. -/
theorem c8_unknown_defect_types :
    ∀ df : List DefectRecord,
      (∀ t, t ∈ defectTypes df →
        (t, (defectTypes df).count t, styleColor t) ∈ createParetoTrace df) ∧
      (∀ t, defectStyleMap.find? (fun p => p.1 == t) = none → styleColor t = "grey") ∧
      (∀ e ∈ createDefectTraces df,
        (∃ c, (e.1, c) ∈ defectStyleMap) ∧
        e.2.2 ≠ [] ∧ ∀ r ∈ e.2.2, r.defectType = e.1 ∧ r ∈ df) ∧
      (∀ t, (∀ c, (t, c) ∉ defectStyleMap) →
        ∀ e ∈ createDefectTraces df, e.1 ≠ t) := by
  intro df
  have htrace : ∀ e ∈ createDefectTraces df,
      (∃ c, (e.1, c) ∈ defectStyleMap) ∧
      e.2.2 ≠ [] ∧ ∀ r ∈ e.2.2, r.defectType = e.1 ∧ r ∈ df := by
    intro e he
    rcases List.mem_filterMap.mp he with ⟨p, hp, hpe⟩
    by_cases hempty : (df.filter (fun r => r.defectType == p.1)).isEmpty
    · rw [if_pos hempty] at hpe
      exact absurd hpe (by simp)
    · rw [if_neg hempty] at hpe
      rcases Option.some.inj hpe with h
      subst h
      refine ⟨⟨p.2, by simpa using hp⟩, ?_, ?_⟩
      · intro hnil
        have hnil' : df.filter (fun r => r.defectType == p.1) = [] := by
          simpa using hnil
        rw [hnil'] at hempty
        exact hempty rfl
      · intro r hr
        rcases List.mem_filter.mp hr with ⟨hrdf, hrt⟩
        exact ⟨by simpa using hrt, hrdf⟩
  refine ⟨?_, ?_, htrace, ?_⟩
  · intro t ht
    have := valueCounts_covers ht
    exact List.mem_map.mpr ⟨(t, (defectTypes df).count t), this, rfl⟩
  · intro t hnone
    simp [styleColor, hnone]
  · intro t hnot e he het
    rcases (htrace e he).1 with ⟨c, hc⟩
    rw [het] at hc
    exact hnot c hc

/-- The `required_columns` list of `data_handler.load_data` (line 21). -/
def requiredColumns : List String := ["DEFECT_TYPE", "UNIT_INDEX_X", "UNIT_INDEX_Y"]

/-- The required columns actually absent from the input table. -/
def missingColumns (cols : List String) : List String :=
  requiredColumns.filter (fun c => !(cols.contains c))

/-- The schema gate of `data_handler.load_data` (lines 21-25) followed by the
common processing: if any required column is absent, an error message naming
the full `required_columns` list is shown and an empty dataframe is returned
(modelled as `Except.error` carrying the displayed column names, so no record
and no quadrant assignment is produced); otherwise the quadrant column is
derived for every record. -/
def loadDataChecked (cols : List String) (records : List DefectRecord)
    (panelRows panelCols : Int) : Except (List String) (List DefectRecord) :=
  if requiredColumns.all (fun c => cols.contains c) then
    Except.ok (records.map (fun r =>
      { r with quadrant := classifyQuadrant panelRows panelCols r.unitIndexX r.unitIndexY }))
  else Except.error requiredColumns

/-- C9 counterexample: for an input table with columns
`[DEFECT_TYPE, UNIT_INDEX_X]`, the only missing column is `UNIT_INDEX_Y`, yet
the reported error names all three required columns — including
`DEFECT_TYPE`, which is present — rather than the specific missing one. -/
theorem c9_counterexample :
    loadDataChecked ["DEFECT_TYPE", "UNIT_INDEX_X"] [] 2 2 =
      Except.error ["DEFECT_TYPE", "UNIT_INDEX_X", "UNIT_INDEX_Y"] ∧
    missingColumns ["DEFECT_TYPE", "UNIT_INDEX_X"] = ["UNIT_INDEX_Y"] ∧
    "DEFECT_TYPE" ∉ missingColumns ["DEFECT_TYPE", "UNIT_INDEX_X"] := by
  refine ⟨rfl, rfl, by decide⟩

/-- C9 amended: when at least one required column is absent, processing fails
fast with an error naming the full required-column list (a superset of the
missing columns, not the specific missing subset) and produces no output at
all: no partial record list and no fabricated quadrant assignment. -/
theorem c9_schema_failfast (cols : List String) (records : List DefectRecord)
    (panelRows panelCols : Int) (hmiss : missingColumns cols ≠ []) :
    loadDataChecked cols records panelRows panelCols = Except.error requiredColumns ∧
    (∀ c ∈ missingColumns cols, c ∈ requiredColumns) ∧
    (∀ out, loadDataChecked cols records panelRows panelCols ≠ Except.ok out) := by
  have hcond : ¬ (requiredColumns.all (fun c => cols.contains c) = true) := by
    intro htrue
    rcases List.exists_mem_of_ne_nil _ hmiss with ⟨c, hc⟩
    have hc' := List.mem_filter.mp hc
    have hin : cols.contains c = true := List.all_eq_true.mp htrue c hc'.1
    have hneg := hc'.2
    rw [hin] at hneg
    simp at hneg
  refine ⟨?_, ?_, ?_⟩
  · unfold loadDataChecked
    rw [if_neg hcond]
  · intro c hc
    exact (List.mem_filter.mp hc).1
  · intro out
    unfold loadDataChecked
    rw [if_neg hcond]
    simp

/-- Witness for C9 (amended) at a table holding only `UNIT_INDEX_X`. -/
theorem c9_schema_failfast_witness :
    loadDataChecked ["UNIT_INDEX_X"] [] 2 2 = Except.error requiredColumns :=
  (c9_schema_failfast ["UNIT_INDEX_X"] [] 2 2 (by decide)).1
